import Mathlib

/-!
Verification development for the ghcrawler GitHub processor core.

The repository under verification ships its test suite
(test/gitHubProcessorTests.js) and the Mongo document store
(src/providers/storage/MongoDocStore.js); the processor itself
(lib/githubProcessor.js), the traversal policy (lib/traversalPolicy.js)
and the request model (lib/request.js) are referenced by the tests but
their sources are not present, so those parts are modelled from the
design document and checked against the behaviour the tests pin down.
The Mongo store is embedded directly from its source.
-/

namespace GHCrawler

/-- Modelled from the spec: the `transitivity` axis of a `TraversalPolicy`
(lib/traversalPolicy.js is not in src/). `deepDeep` is also called
`forceForce` and arises from `TraversalPolicy.update()`. -/
inductive Transitivity where
  | shallow
  | deepShallow
  | deepDeep
  deriving DecidableEq, Repr

/-- Modelled from the spec: the `freshness` axis of a `TraversalPolicy`.
`matchEtag` stands for the source's `match` value. -/
inductive Freshness where
  | always
  | matchEtag
  | version
  | mutables
  deriving DecidableEq, Repr

/-- Modelled from the spec: the role of a child edge at an enqueue site. -/
inductive EdgeRole where
  | collectionPage
  | rootCollectionElement
  | collectionElement
  | resource
  deriving DecidableEq, Repr

/-- Modelled from the spec: the transitivity transition table of section 4.3
(`childFor` of lib/traversalPolicy.js, not in src/). Rows are the parent
transitivity, columns the edge role. -/
def Transitivity.childFor : Transitivity → EdgeRole → Transitivity
  | .shallow, _ => .shallow
  | .deepShallow, .collectionPage => .deepShallow
  | .deepShallow, .rootCollectionElement => .shallow
  | .deepShallow, .collectionElement => .deepShallow
  | .deepShallow, .resource => .shallow
  | .deepDeep, .collectionPage => .deepDeep
  | .deepDeep, .rootCollectionElement => .deepShallow
  | .deepDeep, .collectionElement => .deepShallow
  | .deepDeep, .resource => .deepShallow

/-- Modelled from the spec: a traversal policy as the processor consumes it
(the `fetch` axis is read only by the fetch layer and is omitted). -/
structure Policy where
  transitivity : Transitivity
  freshness : Freshness
  deriving DecidableEq, Repr

/-- Modelled from the spec: `childFor` on whole policies; the freshness axis
propagates unchanged to child requests. -/
def Policy.childFor (p : Policy) (r : EdgeRole) : Policy :=
  ⟨p.transitivity.childFor r, p.freshness⟩

/-- Modelled from the spec: URN builder `entity(type, id)` of section 4.1. -/
def entity (t id : String) : String :=
  "urn:" ++ t ++ ":" ++ id

/-- Modelled from the spec: URN builder `child(qualifier, type, id)`. -/
def childUrn (qualifier t id : String) : String :=
  qualifier ++ ":" ++ t ++ ":" ++ id

/-- Modelled from the spec: URN builder `collection(qualifier, type)`. -/
def collectionUrn (qualifier name : String) : String :=
  qualifier ++ ":" ++ name

/-- Modelled from the spec: URN builder `relation(qualifier, type)`,
appending the pagination wildcard. -/
def relationUrn (qualifier name : String) : String :=
  qualifier ++ ":" ++ name ++ ":pages:*"

/-- The tag of a link entry in `_metadata.links`. -/
inductive LinkKind where
  | resource
  | collection
  | relation
  deriving DecidableEq, Repr

/-- Modelled from the spec: a link entry; singleton links use `href`,
resource lists use `hrefs` (section 4.2). -/
structure Link where
  kind : LinkKind
  href : Option String
  hrefs : List String
  deriving DecidableEq, Repr

def resourceLink (h : String) : Link := ⟨.resource, some h, []⟩

def collectionLink (h : String) : Link := ⟨.collection, some h, []⟩

def relationLink (h : String) : Link := ⟨.relation, some h, []⟩

def resourceListLink (hs : List String) : Link := ⟨.resource, none, hs⟩

/-- A links map is an association list from role name to link. -/
def lookupLink (links : List (String × Link)) (name : String) : Option Link :=
  (links.find? (fun p => p.1 == name)).map (fun p => p.2)

/-- The opening brace character of a URI Template variable. -/
def lbrace : Char := Char.ofNat 123

/-- The closing brace character of a URI Template variable. -/
def rbrace : Char := Char.ofNat 125

/-- Modelled from the spec: one pass over the characters of a URL removing
each URI Template span; the boolean state is true while inside a span. -/
def stripAux : Bool → List Char → List Char
  | _, [] => []
  | false, c :: rest =>
      if c = lbrace then stripAux true rest else c :: stripAux false rest
  | true, c :: rest =>
      if c = rbrace then stripAux false rest else stripAux true rest

/-- Modelled from the spec: strip URI Template variables from a URL before
enqueueing (section 4.7 step 4; lib/githubProcessor.js is not in src/). -/
def stripTemplates (s : String) : String :=
  ⟨stripAux false s.data⟩

/-- A URL carries no brace character. -/
def bracesAbsent (s : String) : Bool :=
  s.data.all (fun c => c ≠ lbrace && c ≠ rbrace)

/-- A URL is a well-formed templated URL: outside a template span no stray
closing brace appears. The state boolean is true while inside a span. -/
def templateWF : Bool → List Char → Bool
  | _, [] => true
  | false, c :: rest =>
      if c = rbrace then false
      else if c = lbrace then templateWF true rest
      else templateWF false rest
  | true, c :: rest =>
      if c = rbrace then templateWF false rest else templateWF true rest

theorem stripAux_mem (cs : List Char) :
    ∀ b, templateWF b cs = true →
      ∀ c ∈ stripAux b cs, c ≠ lbrace ∧ c ≠ rbrace := by
  induction cs with
  | nil => intro b _ c hc; simp [stripAux] at hc
  | cons c rest ih =>
    intro b hwf d hd
    cases b with
    | false =>
      by_cases hr : c = rbrace
      · simp [templateWF, hr] at hwf
      · by_cases hl : c = lbrace
        · rw [hl] at hwf hd
          simp only [templateWF, if_neg (by simpa [hl] using hr), if_pos rfl]
            at hwf
          simp only [stripAux, if_pos rfl] at hd
          exact ih true hwf d hd
        · simp only [templateWF, if_neg hr, if_neg hl] at hwf
          simp only [stripAux, if_neg hl, List.mem_cons] at hd
          rcases hd with hd | hd
          · subst hd; exact ⟨hl, hr⟩
          · exact ih false hwf d hd
    | true =>
      by_cases hr : c = rbrace
      · simp only [templateWF, if_pos hr] at hwf
        simp only [stripAux, if_pos hr] at hd
        exact ih false hwf d hd
      · simp only [templateWF, if_neg hr] at hwf
        simp only [stripAux, if_neg hr] at hd
        exact ih true hwf d hd

theorem stripTemplates_bracesAbsent (s : String)
    (h : templateWF false s.data = true) :
    bracesAbsent (stripTemplates s) = true := by
  have hm := stripAux_mem s.data false h
  simp only [bracesAbsent, stripTemplates, List.all_eq_true]
  intro c hc
  rcases hm c hc with ⟨h1, h2⟩
  simp [h1, h2]

/-- Modelled from the spec: the relation descriptor attached to child
requests in `context.relation` (section 3; lib/request.js not in src/). -/
structure Relation where
  origin : String
  qualifier : String
  type : String
  guid : String
  deriving DecidableEq, Repr

/-- Modelled from the spec: the context carried by a request. -/
structure Context where
  qualifier : Option String
  relation : Option Relation
  elementType : Option String
  deriving DecidableEq, Repr

def emptyContext : Context := ⟨none, none, none⟩

/-- Modelled from the spec: a follow-up request as a handler enqueues it. -/
structure QueuedRequest where
  type : String
  url : String
  context : Context
  policy : Policy
  deriving DecidableEq, Repr

/-- Modelled from the spec: relation guids are freshly generated opaque
non-empty identifiers; the embedding derives them deterministically from
the relation name, which the spec treats as equivalent (guids are opaque
and only compared for presence). -/
def mkGuid (tag : String) : String :=
  "guid-" ++ tag

/-- Modelled from the spec: every enqueue site strips URI Template
variables from the URL before the child request is queued. -/
def mkQueued (t u : String) (c : Context) (p : Policy) : QueuedRequest :=
  ⟨t, stripTemplates u, c, p⟩

/-- A referenced entity inside a payload: a bare id plus API URL. -/
structure UserRef where
  id : Nat
  url : String
  deriving DecidableEq, Repr

/-- The handler result: the `_metadata.links` entries it attaches, in
order, and the follow-up requests it enqueues, in call order. -/
abbrev HandlerResult := List (String × Link) × List QueuedRequest

/-- Modelled from the spec: the payload fields of a `repo` document that
the repo handler consumes (scenario S1). -/
structure RepoDoc where
  id : Nat
  owner : UserRef
  organization : Option UserRef
  teams_url : String
  collaborators_url : String
  commits_url : String
  contributors_url : String
  events_url : String
  issues_url : String
  pulls_url : String
  subscribers_url : String
  deriving DecidableEq, Repr

/-- Modelled from the spec: a relation enqueue from an entity handler: the
child is typed by the link role name, carries `context.qualifier` = the
entity's URN and a `context.relation` naming the origin entity type, the
relation collection URN (built from `urnName`, which can differ from the
role, e.g. role `members` vs URN segment `org_members`) as qualifier, the
element type, and a fresh guid. -/
def relationQueued (origin selfUrn role urnName elemType url : String)
    (pol : Policy) : QueuedRequest :=
  mkQueued role url
    ⟨some selfUrn,
     some ⟨origin, collectionUrn selfUrn urnName, elemType, mkGuid urnName⟩,
     some elemType⟩
    (pol.childFor .collectionPage)

/-- Modelled from the spec: the `repo` handler (section 4.7 and scenario
S1; lib/githubProcessor.js not in src/). Emits self/siblings, resource
links for owner and organization, collection links for events,
pull_requests, commits and issues, relation links for teams,
collaborators, contributors and subscribers, and enqueues user, org, the
four relations, then issues, commits, events. -/
def repo (pol : Policy) (d : RepoDoc) : HandlerResult :=
  let selfUrn := entity "repo" (Nat.repr d.id)
  let ownerUrn := entity "user" (Nat.repr d.owner.id)
  let links :=
    [("self", resourceLink selfUrn),
     ("siblings", collectionLink (collectionUrn ownerUrn "repos")),
     ("owner", resourceLink ownerUrn)]
    ++ (match d.organization with
        | some o => [("organization", resourceLink (entity "org" (Nat.repr o.id)))]
        | none => [])
    ++ [("events", collectionLink (collectionUrn selfUrn "events")),
        ("pull_requests", collectionLink (collectionUrn selfUrn "pull_requests")),
        ("teams", relationLink (relationUrn selfUrn "teams")),
        ("collaborators", relationLink (relationUrn selfUrn "collaborators")),
        ("contributors", relationLink (relationUrn selfUrn "contributors")),
        ("subscribers", relationLink (relationUrn selfUrn "subscribers")),
        ("commits", collectionLink (collectionUrn selfUrn "commits")),
        ("issues", collectionLink (collectionUrn selfUrn "issues"))]
  let queued :=
    [mkQueued "user" d.owner.url emptyContext (pol.childFor .resource)]
    ++ (match d.organization with
        | some o => [mkQueued "org" o.url emptyContext (pol.childFor .resource)]
        | none => [])
    ++ [relationQueued "repo" selfUrn "teams" "teams" "team" d.teams_url pol,
        relationQueued "repo" selfUrn "collaborators" "collaborators" "user" d.collaborators_url pol,
        relationQueued "repo" selfUrn "contributors" "contributors" "user" d.contributors_url pol,
        relationQueued "repo" selfUrn "subscribers" "subscribers" "user" d.subscribers_url pol,
        mkQueued "issues" d.issues_url ⟨some selfUrn, none, some "issue"⟩
          (pol.childFor .collectionPage),
        mkQueued "commits" d.commits_url ⟨some selfUrn, none, some "commit"⟩
          (pol.childFor .collectionPage),
        mkQueued "events" d.events_url ⟨some selfUrn, none, none⟩
          (pol.childFor .collectionPage)]
  (links, queued)

/-- Replace the first occurrence of `pat` in the character list by `sub`,
as the JavaScript `String.replace` with a string pattern does. -/
def replaceFirstAux (pat sub : List Char) : List Char → List Char
  | [] => []
  | c :: rest =>
      if pat.isPrefixOf (c :: rest) then sub ++ (c :: rest).drop pat.length
      else c :: replaceFirstAux pat sub rest

/-- Replace the first occurrence of `pat` in `s` by `sub` (JavaScript
`s.replace(pat, sub)` semantics with a string pattern). -/
def replaceFirst (s pat sub : String) : String :=
  ⟨replaceFirstAux pat.data sub.data s.data⟩

/-- Modelled from the spec: the payload fields of an `org` document that
the org handler consumes. -/
structure OrgDoc where
  id : Nat
  url : String
  repos_url : String
  members_url : String
  deriving DecidableEq, Repr

/-- Modelled from the spec: the `org` handler. Emits self/siblings, the
shadow `user` resource of the org, the user's repos collection, and the
`org_members` relation; enqueues the user (URL derived from the org URL by
replacing `orgs` with `users`), the repos collection and the members
relation page. -/
def org (pol : Policy) (d : OrgDoc) : HandlerResult :=
  let selfUrn := entity "org" (Nat.repr d.id)
  let userUrn := entity "user" (Nat.repr d.id)
  let links :=
    [("self", resourceLink selfUrn),
     ("siblings", collectionLink "urn:orgs"),
     ("user", resourceLink userUrn),
     ("repos", collectionLink (collectionUrn userUrn "repos")),
     ("members", relationLink (relationUrn selfUrn "org_members"))]
  let queued :=
    [mkQueued "user" (replaceFirst d.url "orgs" "users") emptyContext
       (pol.childFor .resource),
     mkQueued "repos" d.repos_url ⟨some userUrn, none, some "repo"⟩
       (pol.childFor .collectionPage),
     relationQueued "org" selfUrn "members" "org_members" "user" d.members_url pol]
  (links, queued)

/-- Modelled from the spec: the payload fields of a `team` document that
the team handler consumes. -/
structure TeamDoc where
  id : Nat
  organization : UserRef
  members_url : String
  repositories_url : String
  deriving DecidableEq, Repr

/-- Modelled from the spec: the `team` handler. Emits self/siblings, the
organization resource, and the `team_members` and `repos` relations;
enqueues the organization, then the members and repos relation pages. -/
def team (pol : Policy) (d : TeamDoc) : HandlerResult :=
  let selfUrn := entity "team" (Nat.repr d.id)
  let orgUrn := entity "org" (Nat.repr d.organization.id)
  let links :=
    [("self", resourceLink selfUrn),
     ("siblings", collectionLink (collectionUrn orgUrn "teams")),
     ("organization", resourceLink orgUrn),
     ("members", relationLink (relationUrn selfUrn "team_members")),
     ("repos", relationLink (relationUrn selfUrn "repos"))]
  let queued :=
    [mkQueued "org" d.organization.url emptyContext (pol.childFor .resource),
     relationQueued "team" selfUrn "members" "team_members" "user" d.members_url pol,
     relationQueued "team" selfUrn "repos" "repos" "repo" d.repositories_url pol]
  (links, queued)

/-- Modelled from the spec: the common root of a repo-scoped event
document: event id, actor, repo, org. -/
structure EventCore where
  id : Nat
  actor : UserRef
  repo : UserRef
  org : UserRef
  deriving DecidableEq, Repr

/-- Modelled from the spec: the common part of every repo-scoped event
handler: self and siblings under the repo URN, actor/repo/org resource
links, and enqueues for actor (as user), repo and org. -/
def eventRoot (etype : String) (pol : Policy) (d : EventCore) : HandlerResult :=
  let repoUrn := entity "repo" (Nat.repr d.repo.id)
  let selfUrn := childUrn repoUrn etype (Nat.repr d.id)
  let links :=
    [("self", resourceLink selfUrn),
     ("siblings", collectionLink (collectionUrn repoUrn (etype ++ "s"))),
     ("actor", resourceLink (entity "user" (Nat.repr d.actor.id))),
     ("repo", resourceLink repoUrn),
     ("org", resourceLink (entity "org" (Nat.repr d.org.id)))]
  let queued :=
    [mkQueued "user" d.actor.url emptyContext (pol.childFor .resource),
     mkQueued "repo" d.repo.url emptyContext (pol.childFor .resource),
     mkQueued "org" d.org.url emptyContext (pol.childFor .resource)]
  (links, queued)

/-- Modelled from the spec: the `StatusEvent` handler synthesizes a
`commit` resource link from `repo.id` and the payload `sha` and queues no
follow-up for the commit, there being no URL for it (scenario S3). -/
def StatusEvent (pol : Policy) (d : EventCore) (sha : String) : HandlerResult :=
  let base := eventRoot "StatusEvent" pol d
  let commitUrn := childUrn (entity "repo" (Nat.repr d.repo.id)) "commit" sha
  (base.1 ++ [("commit", resourceLink commitUrn)], base.2)

/-- An element of a collection page: id plus API URL. -/
structure PageElement where
  id : Nat
  url : String
  deriving DecidableEq, Repr

/-- Drop the last colon-separated segment of a URN: the parent of a
relation qualifier such as `urn:repo:42:teams` is `urn:repo:42`. -/
def parentUrn (s : String) : String :=
  String.intercalate ":" (s.splitOn ":").dropLast

/-- Modelled from the spec: processing a relation collection page
(section 4.7; the page handler of lib/githubProcessor.js is not in
src/). Emits a `resources` resource-list link naming every element by its
global URN `urn:<relationType>:<id>`, an `origin` resource link and a
back-link named after `relation.origin`, both to the parent of the
relation qualifier; enqueues each element with the bare qualifier
`urn:` so the element is linked globally, not under the origin. -/
def pageRelation (pol : Policy) (rel : Relation) (elements : List PageElement) :
    HandlerResult :=
  let originUrn := parentUrn rel.qualifier
  let links :=
    [("resources",
       resourceListLink (elements.map (fun e => entity rel.type (Nat.repr e.id)))),
     ("origin", resourceLink originUrn),
     (rel.origin, resourceLink originUrn)]
  let queued :=
    elements.map (fun e =>
      mkQueued rel.type e.url ⟨some "urn:", none, none⟩
        (pol.childFor .collectionElement))
  (links, queued)

/-- Modelled from the spec: the document a request carries into dispatch,
reduced to the fields dispatch reads: the stamped `_metadata.version` and
an opaque body standing for everything else. -/
structure Doc where
  version : Option Nat
  body : String
  deriving DecidableEq, Repr

/-- Modelled from the spec: the freshness gate of section 4.3, consulted
by dispatch before handling. Returns true when the request should be
skipped. `always` never skips; `matchEtag` skips when the stored etag
equals the fetched one; `version` and `mutables` skip when the stored
`_metadata.version` is greater than or equal to the processor version. -/
def freshnessSkip (procVersion : Nat) (fresh : Freshness)
    (docVersion : Option Nat) (storedEtag fetchedEtag : Option String) : Bool :=
  match fresh with
  | .always => false
  | .matchEtag =>
      match storedEtag, fetchedEtag with
      | some a, some b => a == b
      | _, _ => false
  | .version =>
      match docVersion with
      | some v => decide (procVersion ≤ v)
      | none => false
  | .mutables =>
      match docVersion with
      | some v => decide (procVersion ≤ v)
      | none => false

/-- Modelled from the spec: `canHandle` of section 4.6: false when no
handler exists for the request type, false when the freshness gate says
skip, true otherwise. -/
def canHandle (procVersion : Nat) (hasHandler : Bool) (fresh : Freshness)
    (docVersion : Option Nat) (storedEtag fetchedEtag : Option String) : Bool :=
  hasHandler && !(freshnessSkip procVersion fresh docVersion storedEtag fetchedEtag)

/-- Modelled from the spec: `process` of section 4.6: when `canHandle` is
false the document is returned unchanged and nothing is enqueued;
otherwise the handler runs and the result is stamped with the processor
version. -/
def process (procVersion : Nat) (hasHandler : Bool)
    (handler : Doc → Doc × List QueuedRequest) (fresh : Freshness) (doc : Doc)
    (storedEtag fetchedEtag : Option String) : Doc × List QueuedRequest :=
  if canHandle procVersion hasHandler fresh doc.version storedEtag fetchedEtag then
    let r := handler doc
    ({ r.1 with version := some procVersion }, r.2)
  else
    (doc, [])

/-- The part of a URL before its query string. -/
def baseUrl (u : String) : String :=
  match u.splitOn "?" with
  | [] => u
  | b :: _ => b

/-- Modelled from the spec: the URL of a fanned-out collection page,
derived from the current URL by setting `page` and overwriting
`per_page` to 100 (section 4.6). -/
def pageUrl (base : String) (p : Nat) : String :=
  base ++ "?page=" ++ Nat.repr p ++ "&per_page=100"

/-- Modelled from the spec: the page requests dispatch fans out when the
response's Link header carries `rel next` and `rel last`: one request per
page from `next` to `last` inclusive, typed like the parent, at the
collection-page child policy. -/
def pageRequests (t u : String) (pol : Policy) (next last : Nat) :
    List QueuedRequest :=
  (List.range (last + 1 - next)).map (fun i =>
    ⟨t, pageUrl (baseUrl u) (next + i), emptyContext,
     pol.childFor .collectionPage⟩)

/-- A bulk enqueue as dispatch performs it: the batch plus its priority. -/
structure BulkPush where
  requests : List QueuedRequest
  priority : String
  deriving DecidableEq, Repr

/-- Modelled from the spec: pagination handling in dispatch (section 4.6).
The parsed Link header, when it names a next and a last page, yields
exactly one bulk push at priority `soon`; with no next page nothing is
pushed. -/
def dispatchPages (t u : String) (pol : Policy)
    (header : Option (Nat × Nat)) : List BulkPush :=
  match header with
  | none => []
  | some nl => [⟨pageRequests t u pol nl.1 nl.2, "soon"⟩]

/-- Modelled from the spec: an event payload as `_findNew` consumes it: a
stable id and the owning repo's URL. -/
structure EventRec where
  id : Nat
  repoUrl : String
  deriving DecidableEq, Repr

/-- Modelled from the spec: the store key `_findNew` computes for an
event. -/
def eventKey (e : EventRec) : String :=
  e.repoUrl ++ "/events/" ++ Nat.repr e.id

/-- Modelled from the spec: `_findNew` (section 4.5; the event finder of
lib/githubProcessor.js is not in src/). Looks each event's key up in the
store and keeps, in input order, exactly those whose key misses. -/
def findNew (store : String → Option String) : List EventRec → List EventRec
  | [] => []
  | e :: rest =>
      if (store (eventKey e)).isSome then findNew store rest
      else e :: findNew store rest

/-- A document as MongoDocStore persists it, reduced to the metadata the
store's read operations consult: `_metadata.url`,
`_metadata.links.self.href` and `_metadata.etag`. -/
structure StoredDoc where
  metaUrl : String
  selfHref : String
  etag : String
  deriving DecidableEq, Repr

/-- An entry of the process-local memory cache: MongoDocStore caches
`{ etag, document }` pairs keyed by URL. -/
structure CacheEntry where
  etag : String
  document : StoredDoc
  deriving DecidableEq, Repr

/-- The memory-cache lookup: first entry under the given key. -/
def cacheGet (cache : List (String × CacheEntry)) (url : String) :
    Option CacheEntry :=
  (cache.find? (fun p => p.1 == url)).map (fun p => p.2)

namespace MongoDocStore

/-- `MongoDocStore.get` from src/providers/storage/MongoDocStore.js: on a
cache miss it runs `findOne` with `$or` over `_metadata.url` and
`_metadata.links.self.href`, so either key form matches. -/
def get (db : List StoredDoc) (cache : List (String × CacheEntry))
    (url : String) : Option StoredDoc :=
  match cacheGet cache url with
  | some e => some e.document
  | none => db.find? (fun d => d.metaUrl == url || d.selfHref == url)

/-- `MongoDocStore.etag` from src/providers/storage/MongoDocStore.js: on a
cache miss it runs `findOne` on `_metadata.url` alone — unlike `get`,
there is no `$or` alternative over `_metadata.links.self.href`. -/
def etag (db : List StoredDoc) (cache : List (String × CacheEntry))
    (url : String) : Option String :=
  match cacheGet cache url with
  | some e => some e.etag
  | none => (db.find? (fun d => d.metaUrl == url)).map (fun d => d.etag)

/-- `MongoDocStore.upsert` caches the document under `_metadata.url` (the
db write is keyed by `_metadata.links.self.href`). -/
def upsertCache (cache : List (String × CacheEntry)) (d : StoredDoc) :
    List (String × CacheEntry) :=
  (d.metaUrl, ⟨d.etag, d⟩) :: cache

end MongoDocStore

/-- The repo payload of scenario S1: id 12, owner 45, organization 24 and
the standard url fields, some carrying URI Template variables. -/
def s1RepoDoc : RepoDoc :=
  ⟨12, ⟨45, "http://user/45"⟩, some ⟨24, "http://org/24"⟩,
   "http://teams",
   "http://collaborators\x7b/collaborator\x7d",
   "http://commits\x7b/sha\x7d",
   "http://contributors",
   "http://events",
   "http://issues\x7b/number\x7d",
   "http://pulls\x7b/number\x7d",
   "http://subscribers"⟩

/-- The event core shared by the event scenarios: event id 12345, actor 3,
repo 4, org 5. -/
def s3Event : EventCore :=
  ⟨12345, ⟨3, "http://user/3"⟩, ⟨4, "http://repo/4"⟩, ⟨5, "http://org/5"⟩⟩

/-- C1: for every pair of parent transitivity and edge role, `childFor`
returns exactly the value tabulated in section 4.3: `shallow` is absorbing;
`deepShallow` keeps pages and interior elements deep but decays root
elements and resources to `shallow`; `deepDeep` keeps pages `deepDeep` and
decays root elements, interior elements and resources to `deepShallow`. -/
theorem c1_transitivity_table :
    Transitivity.childFor .shallow .collectionPage = .shallow ∧
    Transitivity.childFor .shallow .rootCollectionElement = .shallow ∧
    Transitivity.childFor .shallow .collectionElement = .shallow ∧
    Transitivity.childFor .shallow .resource = .shallow ∧
    Transitivity.childFor .deepShallow .collectionPage = .deepShallow ∧
    Transitivity.childFor .deepShallow .rootCollectionElement = .shallow ∧
    Transitivity.childFor .deepShallow .collectionElement = .deepShallow ∧
    Transitivity.childFor .deepShallow .resource = .shallow ∧
    Transitivity.childFor .deepDeep .collectionPage = .deepDeep ∧
    Transitivity.childFor .deepDeep .rootCollectionElement = .deepShallow ∧
    Transitivity.childFor .deepDeep .collectionElement = .deepShallow ∧
    Transitivity.childFor .deepDeep .resource = .deepShallow := by
  decide

/-- C2: with freshness `version` and a stored `_metadata.version` greater
than or equal to the processor's version, `canHandle` is false, `process`
returns the document unchanged, and nothing is enqueued. -/
theorem c2_version_skip (procVersion : Nat) (hasHandler : Bool)
    (handler : Doc → Doc × List QueuedRequest) (doc : Doc) (v : Nat)
    (se fe : Option String)
    (hv : doc.version = some v) (hge : procVersion ≤ v) :
    canHandle procVersion hasHandler .version doc.version se fe = false ∧
    process procVersion hasHandler handler .version doc se fe = (doc, []) := by
  have hskip : freshnessSkip procVersion .version doc.version se fe = true := by
    simp [freshnessSkip, hv, hge]
  constructor
  · simp [canHandle, hskip]
  · simp [process, canHandle, hskip]

/-- Witness for C2 at version 12 on a document stored at version 12. -/
theorem c2_version_skip_witness :
    canHandle 12 true .version (some 12) none none = false ∧
    process 12 true (fun d => (d, [])) .version ⟨some 12, "body"⟩ none none
      = (⟨some 12, "body"⟩, []) :=
  c2_version_skip 12 true (fun d => (d, [])) ⟨some 12, "body"⟩ 12 none none
    rfl (by decide)

/-- C3: processing the scenario-S1 repo payload emits self `urn:repo:12`,
siblings `urn:user:45:repos`, owner `urn:user:45`, organization
`urn:org:24`, the four relation links under `urn:repo:12`, and enqueues,
in order, user, org, teams, collaborators, contributors, subscribers,
issues, commits, events, each with URI Templates stripped from its URL. -/
theorem c3_repo_s1 (pol : Policy) :
    lookupLink (repo pol s1RepoDoc).1 "self" = some (resourceLink "urn:repo:12") ∧
    lookupLink (repo pol s1RepoDoc).1 "siblings"
      = some (collectionLink "urn:user:45:repos") ∧
    lookupLink (repo pol s1RepoDoc).1 "owner" = some (resourceLink "urn:user:45") ∧
    lookupLink (repo pol s1RepoDoc).1 "organization"
      = some (resourceLink "urn:org:24") ∧
    lookupLink (repo pol s1RepoDoc).1 "teams"
      = some (relationLink "urn:repo:12:teams:pages:*") ∧
    lookupLink (repo pol s1RepoDoc).1 "collaborators"
      = some (relationLink "urn:repo:12:collaborators:pages:*") ∧
    lookupLink (repo pol s1RepoDoc).1 "contributors"
      = some (relationLink "urn:repo:12:contributors:pages:*") ∧
    lookupLink (repo pol s1RepoDoc).1 "subscribers"
      = some (relationLink "urn:repo:12:subscribers:pages:*") ∧
    (repo pol s1RepoDoc).2.map (fun q => (q.type, q.url)) =
      [("user", "http://user/45"),
       ("org", "http://org/24"),
       ("teams", "http://teams"),
       ("collaborators", "http://collaborators"),
       ("contributors", "http://contributors"),
       ("subscribers", "http://subscribers"),
       ("issues", "http://issues"),
       ("commits", "http://commits"),
       ("events", "http://events")] :=
  ⟨rfl, rfl, rfl, rfl, rfl, rfl, rfl, rfl, rfl⟩

/-- C4: a response whose Link header names next page `k+1` and last page
`n` yields exactly one bulk push, at priority `soon`, of exactly `n - k`
page requests whose pages run `k+1 .. n` in order, each URL rewritten with
`per_page=100`, each typed like the parent request. -/
theorem c4_pagination (t u : String) (pol : Policy) (k n : Nat) :
    (dispatchPages t u pol (some (k + 1, n))).length = 1 ∧
    ∀ bp ∈ dispatchPages t u pol (some (k + 1, n)),
      bp.priority = "soon" ∧
      bp.requests.length = n - k ∧
      ∀ i, i < n - k →
        bp.requests[i]? =
          some ⟨t, pageUrl (baseUrl u) (k + 1 + i), emptyContext,
                pol.childFor .collectionPage⟩ := by
  refine ⟨rfl, ?_⟩
  intro bp hbp
  simp only [dispatchPages, List.mem_singleton] at hbp
  subst hbp
  refine ⟨rfl, ?_, ?_⟩
  · simp [pageRequests]
  · intro i hi
    have hlt : i < n + 1 - (k + 1) := by omega
    simp [pageRequests, List.getElem?_map, List.getElem?_range, hlt]
    exact ⟨i, by simp [List.getElem?_range, hi], rfl⟩

/-- Witness for C4 on the scenario-S4 header: next page 2, last page 2,
a single `soon` push containing the one page-2 request. -/
theorem c4_pagination_witness :
    (dispatchPages "issues" "http://test.com/issues" ⟨.deepShallow, .always⟩
        (some (1 + 1, 2))).length = 1 ∧
    ∀ bp ∈ dispatchPages "issues" "http://test.com/issues"
        ⟨.deepShallow, .always⟩ (some (1 + 1, 2)),
      bp.priority = "soon" ∧
      bp.requests.length = 2 - 1 ∧
      ∀ i, i < 2 - 1 →
        bp.requests[i]? =
          some ⟨"issues", pageUrl (baseUrl "http://test.com/issues") (1 + 1 + i),
                emptyContext,
                Policy.childFor ⟨.deepShallow, .always⟩ .collectionPage⟩ :=
  c4_pagination "issues" "http://test.com/issues" ⟨.deepShallow, .always⟩ 1 2

/-- C8: the StatusEvent handler on payload sha `a1b2` with repo 4 emits a
`commit` resource link `urn:repo:4:commit:a1b2` synthesized from the repo
id and the sha, and enqueues only user, repo and org — no follow-up for
the commit. -/
theorem c8_statusEvent (pol : Policy) :
    lookupLink (StatusEvent pol s3Event "a1b2").1 "commit"
      = some (resourceLink "urn:repo:4:commit:a1b2") ∧
    lookupLink (StatusEvent pol s3Event "a1b2").1 "self"
      = some (resourceLink "urn:repo:4:StatusEvent:12345") ∧
    (StatusEvent pol s3Event "a1b2").2.map (fun q => (q.type, q.url)) =
      [("user", "http://user/3"),
       ("repo", "http://repo/4"),
       ("org", "http://org/5")] :=
  ⟨rfl, rfl, rfl⟩

/-- C10: every element request a relation collection page enqueues carries
the bare qualifier `urn:`, and the page's `resources` link lists the
elements by their global URNs `urn:<relationType>:<id>`, not qualified
under the relation's origin. -/
theorem c10_relation_page (pol : Policy) (rel : Relation)
    (elements : List PageElement) :
    (∀ q ∈ (pageRelation pol rel elements).2,
       q.context.qualifier = some "urn:") ∧
    lookupLink (pageRelation pol rel elements).1 "resources" =
      some (resourceListLink
        (elements.map (fun e => entity rel.type (Nat.repr e.id)))) := by
  constructor
  · intro q hq
    simp only [pageRelation, List.mem_map] at hq
    obtain ⟨e, _, rfl⟩ := hq
    rfl
  · rfl

/-- The scenario-S6 event page: ids 0..19, all on repo `http://repo1`. -/
def s6Events : List EventRec :=
  (List.range 20).map (fun i => ⟨i, "http://repo1"⟩)

/-- The scenario-S6 store: it holds the events with ids 3 and 4. -/
def s6Store (k : String) : Option String :=
  if k == "http://repo1/events/3" || k == "http://repo1/events/4" then
    some "seen"
  else
    none

/-- C7: `_findNew` returns exactly the input events whose store key
`<repo.url>/events/<id>` misses, in input order; on scenario S6 (ids
0..19 with 3 and 4 stored) it returns 18 events, ids 3 and 4 absent and
the order otherwise preserved. -/
theorem c7_findNew :
    (∀ (store : String → Option String) (es : List EventRec),
       findNew store es = es.filter (fun e => (store (eventKey e)).isNone)) ∧
    (findNew s6Store s6Events).length = 18 ∧
    (findNew s6Store s6Events).map (fun e => e.id) =
      (List.range 20).filter (fun i => i != 3 && i != 4) := by
  refine ⟨?_, by decide, by decide⟩
  intro store es
  induction es with
  | nil => rfl
  | cons e rest ih =>
    cases hs : store (eventKey e) with
    | none => simp [findNew, hs, List.filter_cons, ih]
    | some d => simp [findNew, hs, List.filter_cons, ih]

/-- The single-document store state exhibiting the etag divergence: one
stored document whose `_metadata.url` is `http://repo/4`, whose
`_metadata.links.self.href` is `urn:repo:4` and whose etag is `abc`; the
memory cache is empty. -/
def c9Doc : StoredDoc := ⟨"http://repo/4", "urn:repo:4", "abc"⟩

/-- C9: on a cold cache, `get` resolves the document under both the URL
and the URN key form, but `etag` — whose `findOne` filters on
`_metadata.url` alone, with no `$or` over `_metadata.links.self.href` —
returns the etag under the URL and `null` under the URN, contradicting
the claim that both read operations resolve the two key forms
identically. -/
theorem c9_etag_urn_divergence :
    MongoDocStore.get [c9Doc] [] "http://repo/4" = some c9Doc ∧
    MongoDocStore.get [c9Doc] [] "urn:repo:4" = some c9Doc ∧
    MongoDocStore.etag [c9Doc] [] "http://repo/4" = some "abc" ∧
    MongoDocStore.etag [c9Doc] [] "urn:repo:4" = none :=
  ⟨rfl, rfl, rfl, rfl⟩

/-- The URLs the repo handler enqueues are well-formed templated URLs. -/
def RepoDoc.urlsWF (d : RepoDoc) : Bool :=
  templateWF false d.owner.url.data &&
  (match d.organization with
   | some o => templateWF false o.url.data
   | none => true) &&
  templateWF false d.teams_url.data &&
  templateWF false d.collaborators_url.data &&
  templateWF false d.contributors_url.data &&
  templateWF false d.subscribers_url.data &&
  templateWF false d.issues_url.data &&
  templateWF false d.commits_url.data &&
  templateWF false d.events_url.data

/-- The URLs the org handler enqueues are well-formed templated URLs. -/
def OrgDoc.urlsWF (d : OrgDoc) : Bool :=
  templateWF false (replaceFirst d.url "orgs" "users").data &&
  templateWF false d.repos_url.data &&
  templateWF false d.members_url.data

/-- The URLs the team handler enqueues are well-formed templated URLs. -/
def TeamDoc.urlsWF (d : TeamDoc) : Bool :=
  templateWF false d.organization.url.data &&
  templateWF false d.members_url.data &&
  templateWF false d.repositories_url.data

/-- C5: for any payload whose URL fields are well-formed templated URLs,
every child request the repo, org and team handlers enqueue has a URL
containing neither an opening nor a closing brace: URI Template variables
are stripped before enqueueing. -/
theorem c5_no_templates :
    (∀ (pol : Policy) (d : RepoDoc), RepoDoc.urlsWF d = true →
       ((repo pol d).2.all (fun q => bracesAbsent q.url)) = true) ∧
    (∀ (pol : Policy) (d : OrgDoc), OrgDoc.urlsWF d = true →
       ((org pol d).2.all (fun q => bracesAbsent q.url)) = true) ∧
    (∀ (pol : Policy) (d : TeamDoc), TeamDoc.urlsWF d = true →
       ((team pol d).2.all (fun q => bracesAbsent q.url)) = true) := by
  refine ⟨?_, ?_, ?_⟩
  · intro pol d h
    obtain ⟨i, ow, orgOpt, tu, cu, cmu, ctu, eu, iu, pu, su⟩ := d
    rw [List.all_eq_true]
    intro q hq
    cases orgOpt with
    | none =>
      simp only [RepoDoc.urlsWF, Bool.and_eq_true, and_assoc] at h
      obtain ⟨h1, _, h2, h3, h4, h5, h6, h7, h8⟩ := h
      simp only [repo, relationQueued, mkQueued, List.cons_append,
        List.nil_append, List.mem_cons, List.not_mem_nil, or_false] at hq
      rcases hq with h | h | h | h | h | h | h | h
      · subst h; exact stripTemplates_bracesAbsent _ h1
      · subst h; exact stripTemplates_bracesAbsent _ h2
      · subst h; exact stripTemplates_bracesAbsent _ h3
      · subst h; exact stripTemplates_bracesAbsent _ h4
      · subst h; exact stripTemplates_bracesAbsent _ h5
      · subst h; exact stripTemplates_bracesAbsent _ h6
      · subst h; exact stripTemplates_bracesAbsent _ h7
      · subst h; exact stripTemplates_bracesAbsent _ h8
    | some o =>
      simp only [RepoDoc.urlsWF, Bool.and_eq_true, and_assoc] at h
      obtain ⟨h1, h0, h2, h3, h4, h5, h6, h7, h8⟩ := h
      simp only [repo, relationQueued, mkQueued, List.cons_append,
        List.nil_append, List.mem_cons, List.not_mem_nil, or_false] at hq
      rcases hq with h | h | h | h | h | h | h | h | h
      · subst h; exact stripTemplates_bracesAbsent _ h1
      · subst h; exact stripTemplates_bracesAbsent _ h0
      · subst h; exact stripTemplates_bracesAbsent _ h2
      · subst h; exact stripTemplates_bracesAbsent _ h3
      · subst h; exact stripTemplates_bracesAbsent _ h4
      · subst h; exact stripTemplates_bracesAbsent _ h5
      · subst h; exact stripTemplates_bracesAbsent _ h6
      · subst h; exact stripTemplates_bracesAbsent _ h7
      · subst h; exact stripTemplates_bracesAbsent _ h8
  · intro pol d h
    simp only [OrgDoc.urlsWF, Bool.and_eq_true, and_assoc] at h
    obtain ⟨h1, h2, h3⟩ := h
    rw [List.all_eq_true]
    intro q hq
    simp only [org, relationQueued, mkQueued, List.mem_cons,
      List.not_mem_nil, or_false] at hq
    rcases hq with h | h | h
    · subst h; exact stripTemplates_bracesAbsent _ h1
    · subst h; exact stripTemplates_bracesAbsent _ h2
    · subst h; exact stripTemplates_bracesAbsent _ h3
  · intro pol d h
    simp only [TeamDoc.urlsWF, Bool.and_eq_true, and_assoc] at h
    obtain ⟨h1, h2, h3⟩ := h
    rw [List.all_eq_true]
    intro q hq
    simp only [team, relationQueued, mkQueued, List.mem_cons,
      List.not_mem_nil, or_false] at hq
    rcases hq with h | h | h
    · subst h; exact stripTemplates_bracesAbsent _ h1
    · subst h; exact stripTemplates_bracesAbsent _ h2
    · subst h; exact stripTemplates_bracesAbsent _ h3

/-- The org payload of the org processing test: id 9, url carrying `orgs`,
a members URL with a URI Template variable. -/
def testOrgDoc : OrgDoc :=
  ⟨9, "http://orgs/9", "http://repos", "http://members\x7b/member\x7d"⟩

/-- The team payload of the team processing test: id 66, organization 9,
a members URL with a URI Template variable. -/
def testTeamDoc : TeamDoc :=
  ⟨66, ⟨9, "http://orgs/9"⟩, "http://teams/66/members\x7b/member\x7d",
   "http://teams/66/repos"⟩

/-- Witness for C5 on the concrete repo, org and team payloads of the
tests, several of whose URLs carry URI Template variables. -/
theorem c5_no_templates_witness :
    (RepoDoc.urlsWF s1RepoDoc = true ∧
     ((repo ⟨.shallow, .always⟩ s1RepoDoc).2.all
        (fun q => bracesAbsent q.url)) = true) ∧
    (OrgDoc.urlsWF testOrgDoc = true ∧
     ((org ⟨.shallow, .always⟩ testOrgDoc).2.all
        (fun q => bracesAbsent q.url)) = true) ∧
    (TeamDoc.urlsWF testTeamDoc = true ∧
     ((team ⟨.shallow, .always⟩ testTeamDoc).2.all
        (fun q => bracesAbsent q.url)) = true) :=
  ⟨⟨by decide, c5_no_templates.1 ⟨.shallow, .always⟩ s1RepoDoc (by decide)⟩,
   ⟨by decide, c5_no_templates.2.1 ⟨.shallow, .always⟩ testOrgDoc (by decide)⟩,
   ⟨by decide, c5_no_templates.2.2 ⟨.shallow, .always⟩ testTeamDoc (by decide)⟩⟩

/-- The relation descriptor check of C6: a queued request either carries
no relation, or its relation's origin is the emitting entity type and its
guid is non-empty. -/
def relationCtxOk (origin : String) (q : QueuedRequest) : Bool :=
  match q.context.relation with
  | some r => r.origin == origin && r.guid != ""
  | none => true

/-- C6: for the repo and team handlers, the queued child requests carrying
a `context.relation` are exactly those of the emitted relation links (same
role names, in order), and every such relation descriptor has a non-empty
guid and origin equal to the emitting entity type (`repo`, resp. `team`). -/
theorem c6_relation_descriptors :
    (∀ (pol : Policy) (d : RepoDoc),
       ((repo pol d).2.filter
           (fun q => q.context.relation.isSome)).map (fun q => q.type) =
         ((repo pol d).1.filter
           (fun p => p.2.kind == LinkKind.relation)).map (fun p => p.1) ∧
       ((repo pol d).2.all (relationCtxOk "repo")) = true) ∧
    (∀ (pol : Policy) (d : TeamDoc),
       ((team pol d).2.filter
           (fun q => q.context.relation.isSome)).map (fun q => q.type) =
         ((team pol d).1.filter
           (fun p => p.2.kind == LinkKind.relation)).map (fun p => p.1) ∧
       ((team pol d).2.all (relationCtxOk "team")) = true) := by
  constructor
  · intro pol d
    obtain ⟨i, ow, orgOpt, tu, cu, cmu, ctu, eu, iu, pu, su⟩ := d
    cases orgOpt <;> exact ⟨rfl, rfl⟩
  · intro pol d
    exact ⟨rfl, rfl⟩

/-- Witness for C10 on the teams relation page of the URN building test:
relation from repo 42 to teams, one element team 13. -/
theorem c10_relation_page_witness :
    (∀ q ∈ (pageRelation ⟨.shallow, .always⟩
        ⟨"repo", "urn:repo:42:teams", "team", "guid-teams"⟩
        [⟨13, "http://team1"⟩]).2,
       q.context.qualifier = some "urn:") ∧
    lookupLink (pageRelation ⟨.shallow, .always⟩
        ⟨"repo", "urn:repo:42:teams", "team", "guid-teams"⟩
        [⟨13, "http://team1"⟩]).1 "resources" =
      some (resourceListLink
        (([⟨13, "http://team1"⟩] : List PageElement).map
          (fun e => entity "team" (Nat.repr e.id)))) :=
  c10_relation_page ⟨.shallow, .always⟩
    ⟨"repo", "urn:repo:42:teams", "team", "guid-teams"⟩ [⟨13, "http://team1"⟩]

end GHCrawler
